import Mathlib

/-!
Shallow embedding of the reconciliation engine of the RECHERCHE_PROSUMA
repository: the diff computation (apps/comparisons/services.py), delimited
text ingestion (apps/datasets/services.py), configuration validation
(apps/configs/views.py and apps/configs/services.py), the run boundary
(apps/comparisons/views.py) and the export sanitizer
(apps/comparisons/views.py and apps/comparisons/exporters.py).

Tables are modelled as lists of rows; a row is an association list from
column names to cells.  A cell is `Option String`: `none` is the absent
marker (a pandas NaN after reading with dtype=str), `some s` a parsed
string value.
-/

namespace Prosuma

/-- A cell of a table read with dtype=str: `none` models NaN (absent). -/
abbrev Cell := Option String

/-- A row: association list from column name to cell, in column order. -/
abbrev Row := List (String × Cell)

/-- Cell lookup by column name.  An absent column and a column holding the
absent marker both read as `none`; presence is tested by `hasCol`. -/
def getCell (r : Row) (c : String) : Cell :=
  (r.lookup c).join

/-- Whether the row carries a column of this name (`c1 in merged.columns`). -/
def hasCol (r : Row) (c : String) : Bool :=
  (r.lookup c).isSome

/-- Elementwise pandas `!=` on object-dtype cells: NaN compares unequal to
everything, including another NaN. -/
def cellNe : Cell → Cell → Bool
  | some a, some b => a != b
  | _, _ => true

/-- The comparison configuration (apps/configs/models.CompareConfig as
consumed by compute_diff): projected columns, composite keys, join mode.
`join_type` ranges over the four modes offered by the configuration form
("outer", "inner", "left", "right"); the empty string models a falsy stored
value, which compute_diff replaces by "outer". -/
structure Cfg where
  columns_web1 : List String
  columns_desktop : List String
  join_key_web1 : List String
  join_key_desktop : List String
  join_type : String
deriving Repr, DecidableEq

/-- `cfg.join_type or "outer"` from compute_diff. -/
def effJoin (cfg : Cfg) : String :=
  if cfg.join_type = "" then "outer" else cfg.join_type

/-- Column projection `df[cols]`: keeps the listed columns in list order. -/
def proj (cols : List String) (r : Row) : Row :=
  cols.map (fun c => (c, getCell r c))

/-- The tuple of key values of a row (composite key, position-aligned). -/
def keyTuple (ks : List String) (r : Row) : List Cell :=
  ks.map (fun k => getCell r k)

/-- Key pairs whose two names coincide: pandas collapses such a pair into a
single output column carried under the shared name. -/
def collapsedKeys (cfg : Cfg) : List String :=
  (List.zip cfg.join_key_web1 cfg.join_key_desktop).filterMap
    (fun p => if p.1 = p.2 then some p.1 else none)

/-- Output name of a left column: suffixed "_web1" when it collides with a
right column, except for a collapsed key column. -/
def leftOutName (cfg : Cfg) (c : String) : String :=
  if c ∈ cfg.columns_desktop ∧ c ∉ collapsedKeys cfg then c ++ "_web1" else c

/-- Output name of a right column: suffixed "_desktop" when it collides with
a left column, except for a collapsed key column. -/
def rightOutName (cfg : Cfg) (c : String) : String :=
  if c ∈ cfg.columns_web1 ∧ c ∉ collapsedKeys cfg then c ++ "_desktop" else c

/-- Right columns that survive in the merged frame (a collapsed key column
is emitted once, on the left side). -/
def rightOutCols (cfg : Cfg) : List String :=
  cfg.columns_desktop.filter (fun c => c ∉ collapsedKeys cfg)

/-- Merged row for a matched pair: all projected left columns, then the
surviving right columns, then the `_merge` indicator set to "both". -/
def mergedBoth (cfg : Cfg) (lr rr : Row) : Row :=
  cfg.columns_web1.map (fun c => (leftOutName cfg c, getCell lr c))
    ++ (rightOutCols cfg).map (fun c => (rightOutName cfg c, getCell rr c))
    ++ [("_merge", some "both")]

/-- Merged row for an unmatched left row: right-side cells are NaN. -/
def mergedLeftOnly (cfg : Cfg) (lr : Row) : Row :=
  cfg.columns_web1.map (fun c => (leftOutName cfg c, getCell lr c))
    ++ (rightOutCols cfg).map (fun c => (rightOutName cfg c, (none : Cell)))
    ++ [("_merge", some "left_only")]

/-- Merged row for an unmatched right row: left-side cells are NaN except a
collapsed key column, which carries the right key value. -/
def mergedRightOnly (cfg : Cfg) (rr : Row) : Row :=
  cfg.columns_web1.map
      (fun c => (leftOutName cfg c,
        if c ∈ collapsedKeys cfg then getCell rr c else (none : Cell)))
    ++ (rightOutCols cfg).map (fun c => (rightOutName cfg c, getCell rr c))
    ++ [("_merge", some "right_only")]

/-- The right rows whose composite key equals that of the given left row. -/
def matchesOf (cfg : Cfg) (d2 : List Row) (lr : Row) : List Row :=
  d2.filter (fun rr => keyTuple cfg.join_key_desktop rr == keyTuple cfg.join_key_web1 lr)

/-- The left rows whose composite key equals that of the given right row. -/
def leftMatchesOf (cfg : Cfg) (d1 : List Row) (rr : Row) : List Row :=
  d1.filter (fun lr => keyTuple cfg.join_key_desktop rr == keyTuple cfg.join_key_web1 lr)

/-- The merged rows contributed by one left row: its matched pairs, or a
left-only row when it has no match and the mode keeps left rows. -/
def rowsFromLeft (cfg : Cfg) (d2 : List Row) (lr : Row) : List Row :=
  let ms := matchesOf cfg d2 lr
  if ms.isEmpty then
    if effJoin cfg = "outer" ∨ effJoin cfg = "left" then [mergedLeftOnly cfg lr] else []
  else
    ms.map (fun rr => mergedBoth cfg lr rr)

/-- The composite-key join of pd.merge with indicator=True, as the list of
its rows: pairs and left-only rows in left order, then the unmatched right
rows when the mode keeps them. -/
def mergeRows (cfg : Cfg) (d1 d2 : List Row) : List Row :=
  d1.flatMap (rowsFromLeft cfg d2)
    ++ (if effJoin cfg = "outer" ∨ effJoin cfg = "right" then
          (d2.filter (fun rr => (leftMatchesOf cfg d1 rr).isEmpty)).map (mergedRightOnly cfg)
        else [])

/-- Common non-key columns:
`(set(columns_web1) - set(k1)) & (set(columns_desktop) - set(k2))`. -/
def commonCols (cfg : Cfg) : List String :=
  cfg.columns_web1.filter (fun c =>
    c ∉ cfg.join_key_web1 ∧ c ∈ cfg.columns_desktop ∧ c ∉ cfg.join_key_desktop)

/-- `mask_values`: some common non-key column, present on both sides of the
merged frame, holds unequal values in this row (pandas `!=`). -/
def valueDiffMask (cfg : Cfg) (r : Row) : Bool :=
  (commonCols cfg).any (fun c =>
    hasCol r (c ++ "_web1") && hasCol r (c ++ "_desktop")
      && cellNe (getCell r (c ++ "_web1")) (getCell r (c ++ "_desktop")))

/-- `mask_side | mask_values`: the row is kept when its provenance is not
"both", or some compared column differs. -/
def keepRow (cfg : Cfg) (r : Row) : Bool :=
  (getCell r "_merge" != some "both") || valueDiffMask cfg r

/-- compute_diff (apps/comparisons/services.py): project both tables, take
the composite-key join in the configured mode, and keep the rows that are
one-sided or show a value difference in a common non-key column. -/
def compute_diff (t1 t2 : List Row) (cfg : Cfg) : List Row :=
  let d1 := t1.map (proj cfg.columns_web1)
  let d2 := t2.map (proj cfg.columns_desktop)
  (mergeRows cfg d1 d2).filter (keepRow cfg)

/-- A merged row classified matched-equal: provenance "both" and no value
difference in any compared column. -/
def matchedEqual (cfg : Cfg) (r : Row) : Prop :=
  getCell r "_merge" = some "both" ∧ valueDiffMask cfg r = false

/-- The diff rows contributed by one left row: its merged rows that pass
the kept-row filter. -/
def diffFromLeft (cfg : Cfg) (d2 : List Row) (lr : Row) : List Row :=
  (rowsFromLeft cfg d2 lr).filter (keepRow cfg)

/-- The merged rows in which one right row takes part: its matched pairs,
or a right-only row when it has no match and the mode keeps right rows. -/
def rowsFromRight (cfg : Cfg) (d1 : List Row) (rr : Row) : List Row :=
  let ms := leftMatchesOf cfg d1 rr
  if ms.isEmpty then
    if effJoin cfg = "outer" ∨ effJoin cfg = "right" then [mergedRightOnly cfg rr] else []
  else
    ms.map (fun lr => mergedBoth cfg lr rr)

/-- The diff rows in which one right row takes part. -/
def diffFromRight (cfg : Cfg) (d1 : List Row) (rr : Row) : List Row :=
  (rowsFromRight cfg d1 rr).filter (keepRow cfg)

/-- Left table of the concrete scenario of the spec. -/
def scenarioLeft : List Row :=
  [[("id", some "1"), ("name", some "A")], [("id", some "2"), ("name", some "B")]]

/-- Right table of the concrete scenario of the spec. -/
def scenarioRight : List Row :=
  [[("id", some "1"), ("name", some "A")], [("id", some "3"), ("name", some "C")]]

/-- Configuration of the concrete scenario: keys id and id, mode outer. -/
def scenarioCfg : Cfg :=
  { columns_web1 := ["id", "name"], columns_desktop := ["id", "name"],
    join_key_web1 := ["id"], join_key_desktop := ["id"], join_type := "outer" }

/-- The left-only diff row of the scenario (id = 2). -/
def scenarioRow2 : Row :=
  [("id", some "2"), ("name_web1", some "B"), ("name_desktop", none),
   ("_merge", some "left_only")]

/-- The right-only diff row of the scenario (id = 3). -/
def scenarioRow3 : Row :=
  [("id", some "3"), ("name_web1", none), ("name_desktop", some "C"),
   ("_merge", some "right_only")]

/-- Left table of the counterexample to claim C2: the common non-key
column x is absent on both sides of the matched pair. -/
def c2Left : List Row := [[("id", some "1"), ("x", none)]]

/-- Right table of the counterexample to claim C2. -/
def c2Right : List Row := [[("id", some "1"), ("x", none)]]

/-- Configuration of the counterexample to claim C2. -/
def c2Cfg : Cfg :=
  { columns_web1 := ["id", "x"], columns_desktop := ["id", "x"],
    join_key_web1 := ["id"], join_key_desktop := ["id"], join_type := "outer" }

/-- The merged row of the counterexample to claim C2. -/
def c2MergedRow : Row :=
  [("id", some "1"), ("x_web1", none), ("x_desktop", none), ("_merge", some "both")]

/-- Left table of the counterexample to claim C3: one row whose key is
shared by two right rows. -/
def c3Left : List Row := [[("id", some "1"), ("v", some "a")]]

/-- Right table of the counterexample to claim C3: two rows with the same
key. -/
def c3Right : List Row :=
  [[("id", some "1"), ("v", some "b")], [("id", some "1"), ("v", some "c")]]

/-- Configuration of the counterexample to claim C3. -/
def c3Cfg : Cfg :=
  { columns_web1 := ["id", "v"], columns_desktop := ["id", "v"],
    join_key_web1 := ["id"], join_key_desktop := ["id"], join_type := "outer" }

/-- Tables of the witness instance for claim C2: a matched pair with a
value difference in the common non-key column v. -/
def w2Left : List Row := [[("id", some "1"), ("v", some "a")]]

/-- Right table of the witness instance for claim C2. -/
def w2Right : List Row := [[("id", some "1"), ("v", some "b")]]

/-- Configuration of the witness instance for claim C2. -/
def w2Cfg : Cfg :=
  { columns_web1 := ["id", "v"], columns_desktop := ["id", "v"],
    join_key_web1 := ["id"], join_key_desktop := ["id"], join_type := "outer" }

/-- The merged row of the witness instance for claim C2. -/
def w2Row : Row :=
  [("id", some "1"), ("v_web1", some "a"), ("v_desktop", some "b"), ("_merge", some "both")]

/-! ### Separator sniffing (apps/datasets/services.sniff_sep) -/

/-- Number of occurrences of a character in a string. -/
def countChar (s : String) (c : Char) : Nat :=
  s.data.count c

/-- The count-and-choose logic of sniff_sep, on the decoded sample (the
first 64000 bytes of the stream decoded under the chardet guess): tab when
strictly more tabs than semicolons and commas, else semicolon when at least
as many semicolons as commas, else comma. -/
def sniff_sep (sample : String) : String :=
  let cTab := countChar sample '\t'
  let cSem := countChar sample ';'
  let cCom := countChar sample ','
  if cTab > max cSem cCom then "\t"
  else if cSem ≥ cCom then ";" else ","

/-! ### Export sanitizer (apps/comparisons/views._sanitize_for_export) -/

/-- Characters of the class `[\x00-\x08\x0B\x0C\x0E-\x1F]`, illegal in
spreadsheet XML. -/
def illegalXlsxChar (c : Char) : Bool :=
  (c.toNat ≤ 0x08) || (c.toNat == 0x0B) || (c.toNat == 0x0C)
    || (0x0E ≤ c.toNat && c.toNat ≤ 0x1F)

/-- Remove every illegal character from a string, keeping the rest. -/
def stripIllegal (s : String) : String :=
  ⟨s.data.filter (fun c => !illegalXlsxChar c)⟩

/-- _sanitize_for_export: drop the `_merge` column, turn every cell into a
string with the empty string for the absent marker, and strip the illegal
characters from every column name and every cell. -/
def sanitize_for_export (rows : List Row) : List (List (String × String)) :=
  rows.map (fun r =>
    (r.filter (fun p => p.1 ≠ "_merge")).map
      (fun p => (stripIllegal p.1, stripIllegal (p.2.getD ""))))

/-! ### Byte decoding (apps/datasets/services._read_csv_from_bytes) -/

/-- Strict UTF-8 decoding of a byte list into code points: rejects stray
continuation bytes, overlong forms, surrogates and values above U+10FFFF,
as the strict "utf-8" codec does. -/
def utf8Decode : List Nat → Option (List Nat)
  | [] => some []
  | b :: bs =>
    if b < 0x80 then (utf8Decode bs).map (b :: ·)
    else if 0xC2 ≤ b ∧ b ≤ 0xDF then
      match bs with
      | b1 :: bs1 =>
        if 0x80 ≤ b1 ∧ b1 ≤ 0xBF then
          (utf8Decode bs1).map (((b - 0xC0) * 0x40 + (b1 - 0x80)) :: ·)
        else none
      | [] => none
    else if 0xE0 ≤ b ∧ b ≤ 0xEF then
      match bs with
      | b1 :: b2 :: bs2 =>
        if (if b = 0xE0 then 0xA0 else 0x80) ≤ b1 ∧ b1 ≤ (if b = 0xED then 0x9F else 0xBF)
            ∧ 0x80 ≤ b2 ∧ b2 ≤ 0xBF then
          (utf8Decode bs2).map
            (((b - 0xE0) * 0x1000 + (b1 - 0x80) * 0x40 + (b2 - 0x80)) :: ·)
        else none
      | _ => none
    else if 0xF0 ≤ b ∧ b ≤ 0xF4 then
      match bs with
      | b1 :: b2 :: b3 :: bs3 =>
        if (if b = 0xF0 then 0x90 else 0x80) ≤ b1 ∧ b1 ≤ (if b = 0xF4 then 0x8F else 0xBF)
            ∧ 0x80 ≤ b2 ∧ b2 ≤ 0xBF ∧ 0x80 ≤ b3 ∧ b3 ≤ 0xBF then
          (utf8Decode bs3).map
            (((b - 0xF0) * 0x40000 + (b1 - 0x80) * 0x1000 + (b2 - 0x80) * 0x40 + (b3 - 0x80)) :: ·)
        else none
      | _ => none
    else none

/-- The "utf-8-sig" codec: strip one UTF-8 byte-order mark when present,
then decode as strict UTF-8. -/
def utf8SigDecode (bs : List Nat) : Option (List Nat) :=
  match bs with
  | 0xEF :: 0xBB :: 0xBF :: rest => utf8Decode rest
  | _ => utf8Decode bs

/-- The cp1252 mapping of the bytes 0x80 to 0x9F; the five bytes 0x81,
0x8D, 0x8F, 0x90 and 0x9D are undefined and make the codec fail. -/
def cp1252High : Nat → Option Nat
  | 0x80 => some 0x20AC
  | 0x82 => some 0x201A
  | 0x83 => some 0x0192
  | 0x84 => some 0x201E
  | 0x85 => some 0x2026
  | 0x86 => some 0x2020
  | 0x87 => some 0x2021
  | 0x88 => some 0x02C6
  | 0x89 => some 0x2030
  | 0x8A => some 0x0160
  | 0x8B => some 0x2039
  | 0x8C => some 0x0152
  | 0x8E => some 0x017D
  | 0x91 => some 0x2018
  | 0x92 => some 0x2019
  | 0x93 => some 0x201C
  | 0x94 => some 0x201D
  | 0x95 => some 0x2022
  | 0x96 => some 0x2013
  | 0x97 => some 0x2014
  | 0x98 => some 0x02DC
  | 0x99 => some 0x2122
  | 0x9A => some 0x0161
  | 0x9B => some 0x203A
  | 0x9C => some 0x0153
  | 0x9E => some 0x017E
  | 0x9F => some 0x0178
  | _ => none

/-- One byte under the cp1252 codec. -/
def cp1252Byte (b : Nat) : Option Nat :=
  if b < 0x80 ∨ (0xA0 ≤ b ∧ b ≤ 0xFF) then some b else cp1252High b

/-- The cp1252 codec over a byte list. -/
def cp1252Decode (bs : List Nat) : Option (List Nat) :=
  bs.mapM cp1252Byte

/-- The latin1 codec: every byte decodes to the code point of its value,
so decoding never fails. -/
def latin1Decode (bs : List Nat) : Option (List Nat) :=
  some bs

/-- The mac-roman mapping of the bytes 0x80 to 0xFF (every byte defined). -/
def macintoshHigh (b : Nat) : Nat :=
  [0x00C4, 0x00C5, 0x00C7, 0x00C9, 0x00D1, 0x00D6, 0x00DC, 0x00E1,
   0x00E0, 0x00E2, 0x00E4, 0x00E3, 0x00E5, 0x00E7, 0x00E9, 0x00E8,
   0x00EA, 0x00EB, 0x00ED, 0x00EC, 0x00EE, 0x00EF, 0x00F1, 0x00F3,
   0x00F2, 0x00F4, 0x00F6, 0x00F5, 0x00FA, 0x00F9, 0x00FB, 0x00FC,
   0x2020, 0x00B0, 0x00A2, 0x00A3, 0x00A7, 0x2022, 0x00B6, 0x00DF,
   0x00AE, 0x00A9, 0x2122, 0x00B4, 0x00A8, 0x2260, 0x00C6, 0x00D8,
   0x221E, 0x00B1, 0x2264, 0x2265, 0x00A5, 0x00B5, 0x2202, 0x2211,
   0x220F, 0x03C0, 0x222B, 0x00AA, 0x00BA, 0x03A9, 0x00E6, 0x00F8,
   0x00BF, 0x00A1, 0x00AC, 0x221A, 0x0192, 0x2248, 0x2206, 0x00AB,
   0x00BB, 0x2026, 0x00A0, 0x00C0, 0x00C3, 0x00D5, 0x0152, 0x0153,
   0x2013, 0x2014, 0x201C, 0x201D, 0x2018, 0x2019, 0x00F7, 0x25CA,
   0x00FF, 0x0178, 0x2044, 0x20AC, 0x2039, 0x203A, 0xFB01, 0xFB02,
   0x2021, 0x00B7, 0x201A, 0x201E, 0x2030, 0x00C2, 0x00CA, 0x00C1,
   0x00CB, 0x00C8, 0x00CD, 0x00CE, 0x00CF, 0x00CC, 0x00D3, 0x00D4,
   0xF8FF, 0x00D2, 0x00DA, 0x00DB, 0x00D9, 0x0131, 0x02C6, 0x02DC,
   0x00AF, 0x02D8, 0x02D9, 0x02DA, 0x00B8, 0x02DD, 0x02DB, 0x02C7].getD (b - 0x80) 0

/-- One byte under the mac-roman codec (total: the codec never fails). -/
def macintoshByte (b : Nat) : Nat :=
  if b < 0x80 then b else macintoshHigh b

/-- The mac-roman codec over a byte list. -/
def macintoshDecode (bs : List Nat) : Option (List Nat) :=
  some (bs.map macintoshByte)

/-- _ENCODING_CANDIDATES with the decoder of each candidate, in the fixed
order tried by _read_csv_from_bytes. -/
def encodingCandidates : List (String × (List Nat → Option (List Nat))) :=
  [("utf-8-sig", utf8SigDecode), ("utf-8", utf8Decode), ("cp1252", cp1252Decode),
   ("latin1", latin1Decode), ("mac_roman", macintoshDecode)]

/-- The first candidate that decodes the bytes without error, with the
decoded text. -/
def decodeFirst (raw : List Nat) : Option (String × List Nat) :=
  encodingCandidates.findSome? (fun p => (p.2 raw).map (fun t => (p.1, t)))

/-- Outcome of the robust CSV reader: a parsed value under the encoding
used, a propagated parser error, or the final decode failure. -/
inductive CsvOutcome (α : Type) where
  | ok (enc : String) (v : α)
  | parserError (msg : String)
  | decodeError
deriving Repr, DecidableEq

/-- The candidate loop of _read_csv_from_bytes: a decode failure tries the
next candidate, any other error is raised, and the loop falling through
raises the final decode failure. -/
def readCsvGo {α : Type} (parse : List Nat → Except String α) (raw : List Nat) :
    List (String × (List Nat → Option (List Nat))) → CsvOutcome α
  | [] => .decodeError
  | p :: rest =>
    match p.2 raw with
    | none => readCsvGo parse raw rest
    | some t =>
      match parse t with
      | .ok a => .ok p.1 a
      | .error m => .parserError m

/-- _read_csv_from_bytes over an abstract CSV parser: try the candidate
encodings in order. -/
def read_csv_from_bytes {α : Type} (parse : List Nat → Except String α) (raw : List Nat) :
    CsvOutcome α :=
  readCsvGo parse raw encodingCandidates

/-! ### Configuration validation (apps/configs) -/

/-- The configuration errors of the Join-Key Model. -/
inductive ConfigError where
  | emptyKeySet
  | keyCountMismatch
  | invalidColumns (missing : List String)
deriving Repr, DecidableEq

/-- validate_columns (apps/configs/services.py): collects the selected
columns that are missing from the headers and fails when any exist. -/
def validate_columns (selected headers : List String) : Option ConfigError :=
  let missing := selected.filter (fun c => c ∉ headers)
  if missing = [] then none else some (.invalidColumns missing)

/-- The accumulator loop of _dedup (apps/configs/views.py). -/
def dedupGo (seen : List String) : List String → List String
  | [] => []
  | x :: xs => if x ∈ seen then dedupGo seen xs else x :: dedupGo (x :: seen) xs

/-- _dedup: drop every repeated element, keeping first occurrences in
order. -/
def dedup (l : List String) : List String :=
  dedupGo [] l

/-- The validation sequence of choose_columns (apps/configs/views.py): an
empty key list on either side fails first, then a key count mismatch, then
the existence checks of validate_columns; on success the stored projections
are the chosen columns with the keys appended, deduplicated. -/
def build_spec (cols_w1 cols_ds keys_w1 keys_ds hdr_w1 hdr_ds : List String)
    (join_type : String) : Except ConfigError Cfg :=
  if keys_w1 = [] ∨ keys_ds = [] then .error .emptyKeySet
  else if keys_w1.length ≠ keys_ds.length then .error .keyCountMismatch
  else
    match validate_columns cols_w1 hdr_w1 with
    | some e => .error e
    | none =>
      match validate_columns cols_ds hdr_ds with
      | some e => .error e
      | none =>
        match validate_columns keys_w1 hdr_w1 with
        | some e => .error e
        | none =>
          match validate_columns keys_ds hdr_ds with
          | some e => .error e
          | none =>
            .ok { columns_web1 := dedup (cols_w1 ++ keys_w1),
                  columns_desktop := dedup (cols_ds ++ keys_ds),
                  join_key_web1 := keys_w1,
                  join_key_desktop := keys_ds,
                  join_type := join_type }

/-! ### Run boundary (apps/comparisons/views.run_with_session) -/

/-- A CompareRun record, with the fields the engine touches. -/
structure RunRecord where
  status : String
  message : String
  totalRows : Nat
  diffRows : Nat
  finishedAt : Option Nat
  exportCsv : String
  exportXlsx : String
deriving Repr, DecidableEq

/-- The record created at invocation time, in the running state. -/
def initialRun : RunRecord :=
  { status := "running", message := "", totalRows := 0, diffRows := 0,
    finishedAt := none, exportCsv := "", exportXlsx := "" }

/-- The body of the try block after the run is created: compute the diff,
count rows, and perform the export writes, whose outcome is the fallible
argument; an export failure is the error of the body. -/
def runBody (cfg : Cfg) (t1 t2 : List Row) (io : Except String (String × String)) :
    Except String (Nat × Nat × String × String) :=
  match io with
  | .error m => .error m
  | .ok (csvUrl, xlsxUrl) =>
    .ok (t1.length + t2.length, (compute_diff t1 t2 cfg).length, csvUrl, xlsxUrl)

/-- The except clause around the run body: a successful body completes the
run, any exception marks it failed with the diagnostic message, stamping
the completion time either way. -/
def runBoundary (run : RunRecord) (now : Nat)
    (body : Except String (Nat × Nat × String × String)) : RunRecord :=
  match body with
  | .ok (total, diffCount, csvUrl, xlsxUrl) =>
    { run with status := "success", totalRows := total, diffRows := diffCount,
               finishedAt := some now, exportCsv := csvUrl, exportXlsx := xlsxUrl }
  | .error msg =>
    { run with status := "failed", message := msg, finishedAt := some now }

/-- run_with_session over the run ledger: a read failure before the run is
created leaves the ledger untouched; otherwise one run is created and
driven to its terminal state by the boundary. -/
def run_with_session_model (read : Except String (List Row × List Row)) (cfg : Cfg)
    (now : Nat) (io : Except String (String × String)) (ledger : List RunRecord) :
    List RunRecord :=
  match read with
  | .error _ => ledger
  | .ok (t1, t2) => ledger ++ [runBoundary initialRun now (runBody cfg t1 t2 io)]

/-- The two-request flow configuration then run: a configuration error is
surfaced by choose_columns and run_with_session is never reached, so the
ledger is unchanged; a valid configuration proceeds to the run. -/
def configure_and_run (cols_w1 cols_ds keys_w1 keys_ds hdr_w1 hdr_ds : List String)
    (join_type : String) (read : Except String (List Row × List Row)) (now : Nat)
    (io : Except String (String × String)) (ledger : List RunRecord) :
    Except ConfigError Unit × List RunRecord :=
  match build_spec cols_w1 cols_ds keys_w1 keys_ds hdr_w1 hdr_ds join_type with
  | .error e => (.error e, ledger)
  | .ok cfg => (.ok (), run_with_session_model read cfg now io ledger)

/-! ### Helper lemmas -/

theorem keepRow_eq_true_iff (cfg : Cfg) (r : Row) :
    keepRow cfg r = true ↔ (getCell r "_merge" ≠ some "both" ∨ valueDiffMask cfg r = true) := by
  simp [keepRow, Bool.or_eq_true, bne_iff_ne]

theorem mem_compute_diff (t1 t2 : List Row) (cfg : Cfg) (r : Row) :
    r ∈ compute_diff t1 t2 cfg ↔
      r ∈ mergeRows cfg (t1.map (proj cfg.columns_web1)) (t2.map (proj cfg.columns_desktop))
        ∧ keepRow cfg r = true := by
  simp only [compute_diff, List.mem_filter]

theorem cellNe_eq_true_iff (a b : Cell) :
    cellNe a b = true ↔ ¬ ∃ s : String, a = some s ∧ b = some s := by
  cases a <;> cases b <;> simp [cellNe, bne_iff_ne]
  exact ne_comm

/-! ### Claim C1 -/

/-- Claim C1: the diff output is exactly the merged rows that are one-sided
or show a value difference in a common non-key column; no matched-equal row
is ever in the output; and in the concrete scenario the diff is the id=2
left-only row and the id=3 right-only row, excluding the id=1 row. -/
theorem c1_diff_set_exact (t1 t2 : List Row) (cfg : Cfg) :
    (∀ r, r ∈ compute_diff t1 t2 cfg ↔
        r ∈ mergeRows cfg (t1.map (proj cfg.columns_web1)) (t2.map (proj cfg.columns_desktop))
          ∧ (getCell r "_merge" ≠ some "both" ∨ valueDiffMask cfg r = true)) ∧
    (∀ r ∈ compute_diff t1 t2 cfg, ¬ matchedEqual cfg r) ∧
    compute_diff scenarioLeft scenarioRight scenarioCfg = [scenarioRow2, scenarioRow3] ∧
    (∀ r ∈ compute_diff scenarioLeft scenarioRight scenarioCfg, getCell r "id" ≠ some "1") := by
  refine ⟨?_, ?_, by decide, by decide⟩
  · intro r
    rw [mem_compute_diff, keepRow_eq_true_iff]
  · intro r hr hme
    obtain ⟨h1, h2⟩ := hme
    have hk := ((mem_compute_diff t1 t2 cfg r).mp hr).2
    rw [keepRow_eq_true_iff] at hk
    rcases hk with hk | hk
    · exact hk h1
    · rw [h2] at hk
      exact Bool.false_ne_true hk

/-- Witness for claim C1: the scenario left-only row is in the diff output
and is not matched-equal. -/
theorem c1_diff_set_exact_witness : ¬ matchedEqual scenarioCfg scenarioRow2 :=
  (c1_diff_set_exact scenarioLeft scenarioRight scenarioCfg).2.1 scenarioRow2 (by decide)

/-! ### Claim C2 -/

/-- Claim C2 counterexample: a matched pair whose only common non-key
column is absent on both sides is flagged as a value difference by the
code (pandas NaN compares unequal to NaN) and appears in the diff output,
while the claim classifies it matched-equal and excluded. -/
theorem c2_claim_counterexample :
    compute_diff c2Left c2Right c2Cfg = [c2MergedRow] ∧
    getCell c2MergedRow "_merge" = some "both" ∧
    getCell c2MergedRow "x_web1" = none ∧
    getCell c2MergedRow "x_desktop" = none ∧
    valueDiffMask c2Cfg c2MergedRow = true := by
  decide

/-- Claim C2 (amended): a matched pair is flagged matched-with-value-diff
and kept iff some common non-key column, carried on both sides of the
merged row, does not hold the same present string on the two sides; any
comparison with the absent marker on either side, including absent on both
sides, counts as a difference. -/
theorem c2_value_comparison (t1 t2 : List Row) (cfg : Cfg) (r : Row)
    (hmem : r ∈ mergeRows cfg (t1.map (proj cfg.columns_web1)) (t2.map (proj cfg.columns_desktop)))
    (hboth : getCell r "_merge" = some "both") :
    r ∈ compute_diff t1 t2 cfg ↔
      ∃ c ∈ commonCols cfg, hasCol r (c ++ "_web1") = true ∧ hasCol r (c ++ "_desktop") = true ∧
        ¬ ∃ s : String, getCell r (c ++ "_web1") = some s ∧ getCell r (c ++ "_desktop") = some s := by
  rw [mem_compute_diff]
  have hkeep : keepRow cfg r = valueDiffMask cfg r := by
    rw [keepRow, hboth]
    simp
  rw [hkeep]
  constructor
  · rintro ⟨-, hv⟩
    rcases List.any_eq_true.mp hv with ⟨c, hc, hb⟩
    simp only [Bool.and_eq_true] at hb
    obtain ⟨⟨h1, h2⟩, hne⟩ := hb
    exact ⟨c, hc, h1, h2, (cellNe_eq_true_iff _ _).mp hne⟩
  · rintro ⟨c, hc, h1, h2, hne⟩
    refine ⟨hmem, List.any_eq_true.mpr ⟨c, hc, ?_⟩⟩
    simp only [Bool.and_eq_true]
    exact ⟨⟨h1, h2⟩, (cellNe_eq_true_iff _ _).mpr hne⟩

/-- Witness for claim C2: a matched pair with present but unequal strings
in the common column v is in the diff output. -/
theorem c2_value_comparison_witness : w2Row ∈ compute_diff w2Left w2Right w2Cfg := by
  refine (c2_value_comparison w2Left w2Right w2Cfg w2Row (by decide) (by decide)).mpr ?_
  refine ⟨"v", by decide, by decide, by decide, ?_⟩
  rintro ⟨s, h1, h2⟩
  have h1a : some "a" = some s := h1
  have h2b : some "b" = some s := h2
  cases h1a
  exact absurd h2b (by decide)

/-! ### Claim C3 -/

theorem append_web1_ne_merge (c : String) : c ++ "_web1" ≠ "_merge" := by
  intro h
  have hlen := congrArg String.length h
  rw [String.length_append] at hlen
  have hc1 : c.length = 1 := by
    have : ("_web1" : String).length = 5 := by decide
    have : ("_merge" : String).length = 6 := by decide
    omega
  have hdata := congrArg String.data h
  rw [String.data_append] at hdata
  obtain ⟨a, ha⟩ := List.length_eq_one.mp hc1
  rw [ha] at hdata
  have : a :: ("_web1" : String).data = ("_merge" : String).data := hdata
  rw [show ("_web1" : String).data = ['_', 'w', 'e', 'b', '1'] from rfl,
      show ("_merge" : String).data = ['_', 'm', 'e', 'r', 'g', 'e'] from rfl] at this
  have h2 := (List.cons.injEq _ _ _ _).mp this
  exact absurd h2.2 (by decide)

theorem append_desktop_ne_merge (c : String) : c ++ "_desktop" ≠ "_merge" := by
  intro h
  have hlen := congrArg String.length h
  rw [String.length_append] at hlen
  have h8 : ("_desktop" : String).length = 8 := by decide
  have h6 : ("_merge" : String).length = 6 := by decide
  omega

theorem leftOutName_ne_merge (cfg : Cfg) (c : String) (hc : c ≠ "_merge") :
    leftOutName cfg c ≠ "_merge" := by
  rw [leftOutName]
  split
  · exact append_web1_ne_merge c
  · exact hc

theorem rightOutName_ne_merge (cfg : Cfg) (c : String) (hc : c ≠ "_merge") :
    rightOutName cfg c ≠ "_merge" := by
  rw [rightOutName]
  split
  · exact append_desktop_ne_merge c
  · exact hc

theorem lookup_map_mk_eq_none {β : Type} (f : String → String) (g : String → β)
    (cols : List String) (n : String) (h : ∀ c ∈ cols, f c ≠ n) :
    (cols.map (fun c => (f c, g c))).lookup n = none := by
  induction cols with
  | nil => rfl
  | cons hd tl ih =>
    have hne : (n == f hd) = false := beq_false_of_ne fun he => h hd (by simp) he.symm
    simp only [List.map_cons, List.lookup, hne]
    exact ih fun c hc => h c (by simp [hc])

theorem lookup_append_of_none {β : Type} (l1 l2 : List (String × β)) (n : String)
    (h : l1.lookup n = none) : (l1 ++ l2).lookup n = l2.lookup n := by
  induction l1 with
  | nil => rfl
  | cons hd tl ih =>
    obtain ⟨k, v⟩ := hd
    by_cases hk : (n == k) = true
    · simp only [List.lookup, hk] at h
      exact absurd h (by simp)
    · have hk' : (n == k) = false := by
        simp only [Bool.not_eq_true] at hk
        exact hk
      simp only [List.lookup, hk'] at h ⊢
      exact ih h

theorem getCell_tag (cfg : Cfg) (f g : String → Cell) (tag : Cell)
    (hm1 : "_merge" ∉ cfg.columns_web1) (hm2 : "_merge" ∉ cfg.columns_desktop) :
    getCell (cfg.columns_web1.map (fun c => (leftOutName cfg c, f c))
        ++ ((rightOutCols cfg).map (fun c => (rightOutName cfg c, g c))
            ++ [("_merge", tag)])) "_merge" = tag := by
  rw [getCell, lookup_append_of_none, lookup_append_of_none]
  · rfl
  · exact lookup_map_mk_eq_none _ _ _ _ fun c hc =>
      rightOutName_ne_merge cfg c fun he => hm2 (he ▸ (List.mem_filter.mp hc).1)
  · exact lookup_map_mk_eq_none _ _ _ _ fun c hc =>
      leftOutName_ne_merge cfg c fun he => hm1 (he ▸ hc)

theorem getCell_mergedBoth_tag (cfg : Cfg) (lr rr : Row)
    (hm1 : "_merge" ∉ cfg.columns_web1) (hm2 : "_merge" ∉ cfg.columns_desktop) :
    getCell (mergedBoth cfg lr rr) "_merge" = some "both" := by
  rw [mergedBoth, List.append_assoc]
  exact getCell_tag cfg _ _ _ hm1 hm2

theorem getCell_mergedLeftOnly_tag (cfg : Cfg) (lr : Row)
    (hm1 : "_merge" ∉ cfg.columns_web1) (hm2 : "_merge" ∉ cfg.columns_desktop) :
    getCell (mergedLeftOnly cfg lr) "_merge" = some "left_only" := by
  rw [mergedLeftOnly, List.append_assoc]
  exact getCell_tag cfg _ _ _ hm1 hm2

theorem getCell_mergedRightOnly_tag (cfg : Cfg) (rr : Row)
    (hm1 : "_merge" ∉ cfg.columns_web1) (hm2 : "_merge" ∉ cfg.columns_desktop) :
    getCell (mergedRightOnly cfg rr) "_merge" = some "right_only" := by
  rw [mergedRightOnly, List.append_assoc]
  exact getCell_tag cfg _ _ _ hm1 hm2

theorem keepRow_mergedLeftOnly (cfg : Cfg) (lr : Row)
    (hm1 : "_merge" ∉ cfg.columns_web1) (hm2 : "_merge" ∉ cfg.columns_desktop) :
    keepRow cfg (mergedLeftOnly cfg lr) = true := by
  rw [keepRow, getCell_mergedLeftOnly_tag cfg lr hm1 hm2,
      show ((some "left_only" : Cell) != some "both") = true from by decide]
  simp

theorem keepRow_mergedRightOnly (cfg : Cfg) (rr : Row)
    (hm1 : "_merge" ∉ cfg.columns_web1) (hm2 : "_merge" ∉ cfg.columns_desktop) :
    keepRow cfg (mergedRightOnly cfg rr) = true := by
  rw [keepRow, getCell_mergedRightOnly_tag cfg rr hm1 hm2,
      show ((some "right_only" : Cell) != some "both") = true from by decide]
  simp

theorem keepRow_mergedBoth (cfg : Cfg) (lr rr : Row)
    (hm1 : "_merge" ∉ cfg.columns_web1) (hm2 : "_merge" ∉ cfg.columns_desktop) :
    keepRow cfg (mergedBoth cfg lr rr) = valueDiffMask cfg (mergedBoth cfg lr rr) := by
  rw [keepRow, getCell_mergedBoth_tag cfg lr rr hm1 hm2]
  simp

theorem filter_length_le_one_of_pairwise {α : Type} (d : List α) (p : α → Bool)
    (R : α → α → Prop) (hnd : d.Pairwise R)
    (h : ∀ a b, p a = true → p b = true → ¬ R a b) :
    (d.filter p).length ≤ 1 := by
  induction d with
  | nil => simp
  | cons hd tl ih =>
    rw [List.pairwise_cons] at hnd
    by_cases hp : p hd = true
    · have htl : tl.filter p = [] := by
        rw [List.filter_eq_nil_iff]
        intro a ha hpa
        exact h hd a hp hpa (hnd.1 a ha)
      simp [List.filter_cons, hp, htl]
    · have hp' : p hd = false := by
        simp only [Bool.not_eq_true] at hp
        exact hp
      rw [List.filter_cons_of_neg (by simp [hp'])]
      exact ih hnd.2

theorem matchesOf_length_le_one (cfg : Cfg) (d2 : List Row) (lr : Row)
    (hnd : d2.Pairwise (fun a b =>
      keyTuple cfg.join_key_desktop a ≠ keyTuple cfg.join_key_desktop b)) :
    (matchesOf cfg d2 lr).length ≤ 1 := by
  refine filter_length_le_one_of_pairwise d2 _ _ hnd ?_
  intro a b ha hb hR
  exact hR ((beq_iff_eq.mp ha).trans (beq_iff_eq.mp hb).symm)

theorem leftMatchesOf_length_le_one (cfg : Cfg) (d1 : List Row) (rr : Row)
    (hnd : d1.Pairwise (fun a b =>
      keyTuple cfg.join_key_web1 a ≠ keyTuple cfg.join_key_web1 b)) :
    (leftMatchesOf cfg d1 rr).length ≤ 1 := by
  refine filter_length_le_one_of_pairwise d1 _ _ hnd ?_
  intro a b ha hb hR
  exact hR ((beq_iff_eq.mp ha).symm.trans (beq_iff_eq.mp hb))

/-- Claim C3 counterexample: a single left row whose key is shared by two
right rows appears in two diff output rows, both matched-with-value-diff,
although it has no counterpart with all compared columns equal; the claim
says every input row appears in exactly one output row. -/
theorem c3_claim_counterexample :
    c3Left.length = 1 ∧
    (compute_diff c3Left c3Right c3Cfg).length = 2 ∧
    (∀ r ∈ compute_diff c3Left c3Right c3Cfg,
        getCell r "id" = some "1" ∧ getCell r "v_web1" = some "a" ∧
        getCell r "_merge" = some "both" ∧ valueDiffMask c3Cfg r = true) := by
  decide

/-- Claim C3 (amended): in outer mode, when the composite key values are
pairwise distinct within each projected table and no configured column is
named _merge, the diff output decomposes by left row plus the unmatched
right rows; each left row contributes exactly one output row unless its
unique match shows no value difference (then zero), each right row takes
part in exactly one output row under the same proviso, and every such row
is in the diff output.  With duplicated keys a row joins one counterpart
per match, so it can appear in several output rows. -/
theorem c3_outer_row_multiplicity (t1 t2 : List Row) (cfg : Cfg)
    (houter : effJoin cfg = "outer")
    (hm1 : "_merge" ∉ cfg.columns_web1) (hm2 : "_merge" ∉ cfg.columns_desktop)
    (hnd1 : (t1.map (proj cfg.columns_web1)).Pairwise
      (fun a b => keyTuple cfg.join_key_web1 a ≠ keyTuple cfg.join_key_web1 b))
    (hnd2 : (t2.map (proj cfg.columns_desktop)).Pairwise
      (fun a b => keyTuple cfg.join_key_desktop a ≠ keyTuple cfg.join_key_desktop b)) :
    (compute_diff t1 t2 cfg
        = (t1.map (proj cfg.columns_web1)).flatMap
            (diffFromLeft cfg (t2.map (proj cfg.columns_desktop)))
          ++ ((t2.map (proj cfg.columns_desktop)).filter
                (fun rr => (leftMatchesOf cfg (t1.map (proj cfg.columns_web1)) rr).isEmpty)).map
              (mergedRightOnly cfg)) ∧
    (∀ lr ∈ t1.map (proj cfg.columns_web1),
        (diffFromLeft cfg (t2.map (proj cfg.columns_desktop)) lr).length
          = if (matchesOf cfg (t2.map (proj cfg.columns_desktop)) lr).any
                (fun rr => !(valueDiffMask cfg (mergedBoth cfg lr rr))) then 0 else 1) ∧
    (∀ rr ∈ t2.map (proj cfg.columns_desktop),
        (diffFromRight cfg (t1.map (proj cfg.columns_web1)) rr).length
          = if (leftMatchesOf cfg (t1.map (proj cfg.columns_web1)) rr).any
                (fun lr => !(valueDiffMask cfg (mergedBoth cfg lr rr))) then 0 else 1) ∧
    (∀ rr ∈ t2.map (proj cfg.columns_desktop),
        ∀ r ∈ diffFromRight cfg (t1.map (proj cfg.columns_web1)) rr,
          r ∈ compute_diff t1 t2 cfg) := by
  set d1 := t1.map (proj cfg.columns_web1) with hd1
  set d2 := t2.map (proj cfg.columns_desktop) with hd2
  have hOR : effJoin cfg = "outer" ∨ effJoin cfg = "right" := Or.inl houter
  have hOL : effJoin cfg = "outer" ∨ effJoin cfg = "left" := Or.inl houter
  refine ⟨?_, ?_, ?_, ?_⟩
  · simp only [compute_diff, mergeRows, if_pos hOR]
    rw [List.filter_append, List.filter_flatMap, List.filter_map]
    have hright : List.filter (keepRow cfg ∘ mergedRightOnly cfg)
        (d2.filter (fun rr => (leftMatchesOf cfg d1 rr).isEmpty))
        = d2.filter (fun rr => (leftMatchesOf cfg d1 rr).isEmpty) := by
      rw [List.filter_eq_self]
      intro a _
      exact keepRow_mergedRightOnly cfg a hm1 hm2
    rw [hright]
    rfl
  · intro lr _
    have hle := matchesOf_length_le_one cfg d2 lr hnd2
    rcases hms : matchesOf cfg d2 lr with _ | ⟨rr, _ | ⟨b, t⟩⟩
    · rw [diffFromLeft, rowsFromLeft, hms]
      simp only [List.isEmpty_nil, if_true, if_pos hOL, List.any_nil, if_false]
      rw [List.filter_cons_of_pos (keepRow_mergedLeftOnly cfg lr hm1 hm2)]
      rfl
    · rw [diffFromLeft, rowsFromLeft, hms]
      simp only [List.isEmpty_cons, Bool.false_eq_true, if_false, List.map_cons, List.map_nil,
        List.any_cons, List.any_nil, Bool.or_false]
      by_cases hv : valueDiffMask cfg (mergedBoth cfg lr rr) = true
      · rw [List.filter_cons_of_pos (by rw [keepRow_mergedBoth cfg lr rr hm1 hm2]; exact hv),
            hv]
        rfl
      · have hv' : valueDiffMask cfg (mergedBoth cfg lr rr) = false :=
          Bool.not_eq_true _ ▸ Bool.eq_false_iff.mpr hv
        rw [List.filter_cons_of_neg (by rw [keepRow_mergedBoth cfg lr rr hm1 hm2, hv']; simp),
            hv']
        rfl
    · rw [hms] at hle
      simp at hle
  · intro rr _
    have hle := leftMatchesOf_length_le_one cfg d1 rr hnd1
    rcases hms : leftMatchesOf cfg d1 rr with _ | ⟨lr, _ | ⟨b, t⟩⟩
    · rw [diffFromRight, rowsFromRight, hms]
      simp only [List.isEmpty_nil, if_true, if_pos hOR, List.any_nil, if_false]
      rw [List.filter_cons_of_pos (keepRow_mergedRightOnly cfg rr hm1 hm2)]
      rfl
    · rw [diffFromRight, rowsFromRight, hms]
      simp only [List.isEmpty_cons, Bool.false_eq_true, if_false, List.map_cons, List.map_nil,
        List.any_cons, List.any_nil, Bool.or_false]
      by_cases hv : valueDiffMask cfg (mergedBoth cfg lr rr) = true
      · rw [List.filter_cons_of_pos (by rw [keepRow_mergedBoth cfg lr rr hm1 hm2]; exact hv),
            hv]
        rfl
      · have hv' : valueDiffMask cfg (mergedBoth cfg lr rr) = false :=
          Bool.not_eq_true _ ▸ Bool.eq_false_iff.mpr hv
        rw [List.filter_cons_of_neg (by rw [keepRow_mergedBoth cfg lr rr hm1 hm2, hv']; simp),
            hv']
        rfl
    · rw [hms] at hle
      simp at hle
  · intro rr hrr r hr
    obtain ⟨hrR, hkeep⟩ := List.mem_filter.mp hr
    rw [rowsFromRight] at hrR
    rw [mem_compute_diff]
    refine ⟨?_, hkeep⟩
    rw [mergeRows]
    by_cases hE : (leftMatchesOf cfg d1 rr).isEmpty = true
    · rw [if_pos hE, if_pos hOR] at hrR
      have hre : r = mergedRightOnly cfg rr := by simpa using hrR
      subst hre
      refine List.mem_append_right _ ?_
      rw [if_pos hOR]
      exact List.mem_map_of_mem _ (List.mem_filter.mpr ⟨hrr, hE⟩)
    · rw [if_neg hE] at hrR
      obtain ⟨lr, hlrm, hreq⟩ := List.mem_map.mp hrR
      obtain ⟨hlr1, hplr⟩ := List.mem_filter.mp hlrm
      subst hreq
      refine List.mem_append_left _ ?_
      rw [List.mem_flatMap]
      refine ⟨lr, hlr1, ?_⟩
      rw [rowsFromLeft]
      have hmem2 : rr ∈ matchesOf cfg d2 lr := List.mem_filter.mpr ⟨hrr, hplr⟩
      rw [if_neg (fun h => by
        rw [List.isEmpty_iff] at h
        rw [h] at hmem2
        exact List.not_mem_nil rr hmem2)]
      exact List.mem_map_of_mem _ hmem2

/-- Witness for claim C3: in the concrete scenario the id=2 left row,
which has no match, contributes exactly one diff row. -/
theorem c3_outer_row_multiplicity_witness :
    (diffFromLeft scenarioCfg (scenarioRight.map (proj scenarioCfg.columns_desktop))
        (proj scenarioCfg.columns_web1 [("id", some "2"), ("name", some "B")])).length
      = if (matchesOf scenarioCfg (scenarioRight.map (proj scenarioCfg.columns_desktop))
              (proj scenarioCfg.columns_web1 [("id", some "2"), ("name", some "B")])).any
            (fun rr => !(valueDiffMask scenarioCfg (mergedBoth scenarioCfg
                (proj scenarioCfg.columns_web1 [("id", some "2"), ("name", some "B")]) rr)))
          then 0 else 1 :=
  (c3_outer_row_multiplicity scenarioLeft scenarioRight scenarioCfg (by decide) (by decide)
      (by decide) (by decide) (by decide)).2.1
    (proj scenarioCfg.columns_web1 [("id", some "2"), ("name", some "B")]) (by decide)

/-! ### Claim C4 -/

/-- Claim C4 counterexample: on a sample with one tab, one semicolon and no
comma the counts of tab and semicolon tie, and sniff_sep picks the
semicolon, not the tab the claimed priority order requires. -/
theorem c4_claim_counterexample :
    countChar "\t;" '\t' = countChar "\t;" ';' ∧
    countChar "\t;" ',' = 0 ∧
    sniff_sep "\t;" = ";" ∧
    (";" : String) ≠ "\t" := by
  decide

/-- Claim C4 (amended): the inferred separator always has the highest
occurrence count among tab, semicolon and comma, but ties are broken in
favour of the semicolon, then the comma: the tab wins only with a strictly
higher count than both others, and the semicolon wins over the comma on a
tie.  In particular a tab/semicolon tie yields the semicolon. -/
theorem c4_sniff_sep_priority (sample : String) :
    (sniff_sep sample = "\t" ∨ sniff_sep sample = ";" ∨ sniff_sep sample = ",") ∧
    (sniff_sep sample = "\t" →
      countChar sample '\t'
          = max (countChar sample '\t') (max (countChar sample ';') (countChar sample ',')) ∧
        countChar sample ';' < countChar sample '\t' ∧
        countChar sample ',' < countChar sample '\t') ∧
    (sniff_sep sample = ";" →
      countChar sample ';'
          = max (countChar sample '\t') (max (countChar sample ';') (countChar sample ',')) ∧
        countChar sample ',' ≤ countChar sample ';') ∧
    (sniff_sep sample = "," →
      countChar sample ','
          = max (countChar sample '\t') (max (countChar sample ';') (countChar sample ',')) ∧
        countChar sample ';' < countChar sample ',') := by
  have hts : ("\t" : String) ≠ ";" := by decide
  have htc : ("\t" : String) ≠ "," := by decide
  have hsc : (";" : String) ≠ "," := by decide
  rw [sniff_sep]
  split_ifs with h1 h2
  · refine ⟨Or.inl rfl, fun _ => ?_, fun hx => absurd hx hts, fun hx => absurd hx htc⟩
    have hS : countChar sample ';' < countChar sample '\t' :=
      lt_of_le_of_lt (le_max_left _ _) h1
    have hC : countChar sample ',' < countChar sample '\t' :=
      lt_of_le_of_lt (le_max_right _ _) h1
    exact ⟨(Nat.max_eq_left (le_of_lt h1)).symm, hS, hC⟩
  · refine ⟨Or.inr (Or.inl rfl), fun hx => absurd hx hts.symm, fun _ => ?_,
      fun hx => absurd hx hsc⟩
    have hmax : max (countChar sample ';') (countChar sample ',') = countChar sample ';' :=
      Nat.max_eq_left h2
    have hT : countChar sample '\t' ≤ countChar sample ';' := by
      have := Nat.not_lt.mp h1
      rw [hmax] at this
      exact this
    rw [hmax]
    exact ⟨(Nat.max_eq_right hT).symm, h2⟩
  · refine ⟨Or.inr (Or.inr rfl), fun hx => absurd hx htc.symm, fun hx => absurd hx hsc.symm,
      fun _ => ?_⟩
    have hS : countChar sample ';' < countChar sample ',' := Nat.not_le.mp h2
    have hmax : max (countChar sample ';') (countChar sample ',') = countChar sample ',' :=
      Nat.max_eq_right (le_of_lt hS)
    have hT : countChar sample '\t' ≤ countChar sample ',' := by
      have := Nat.not_lt.mp h1
      rw [hmax] at this
      exact this
    rw [hmax]
    exact ⟨(Nat.max_eq_right hT).symm, hS⟩

/-- Witness for claim C4: on a sample where the tab strictly dominates,
sniff_sep returns the tab and its count beats the semicolon count. -/
theorem c4_sniff_sep_priority_witness :
    countChar "a\t\tb;c" ';' < countChar "a\t\tb;c" '\t' :=
  ((c4_sniff_sep_priority "a\t\tb;c").2.1 (by decide)).2.1

/-! ### Claims C5 and C10 -/

theorem readCsvGo_eq_decodeError_iff {α : Type} (parse : List Nat → Except String α)
    (raw : List Nat) (cands : List (String × (List Nat → Option (List Nat)))) :
    readCsvGo parse raw cands = CsvOutcome.decodeError ↔ ∀ p ∈ cands, p.2 raw = none := by
  induction cands with
  | nil => simp [readCsvGo]
  | cons hd tl ih =>
    rw [readCsvGo]
    cases hh : hd.2 raw with
    | none =>
      rw [ih]
      simp [List.forall_mem_cons, hh]
    | some t =>
      cases hp : parse t with
      | ok a => simp [hp, List.forall_mem_cons, hh]
      | error m => simp [hp, List.forall_mem_cons, hh]

theorem readCsvGo_first {α : Type} (parse : List Nat → Except String α) (raw : List Nat)
    (cands : List (String × (List Nat → Option (List Nat)))) (enc : String) (txt : List Nat)
    (h : cands.findSome? (fun p => (p.2 raw).map (fun t => (p.1, t))) = some (enc, txt)) :
    readCsvGo parse raw cands
      = match parse txt with
        | .ok a => CsvOutcome.ok enc a
        | .error m => CsvOutcome.parserError m := by
  induction cands with
  | nil => simp [List.findSome?] at h
  | cons hd tl ih =>
    rw [List.findSome?_cons] at h
    cases hh : hd.2 raw with
    | none =>
      rw [hh] at h
      simp only [Option.map_none'] at h
      rw [readCsvGo, hh]
      exact ih h
    | some t =>
      rw [hh] at h
      simp only [Option.map_some', Option.some.injEq, Prod.mk.injEq] at h
      obtain ⟨he, ht⟩ := h
      subst he
      subst ht
      rw [readCsvGo, hh]

/-- Claim C5: the delimited-text reader tries the fixed ordered candidate
list, uses the first candidate that decodes without error, and ends in the
decode failure iff every candidate fails; a byte stream invalid in UTF-8
but valid under cp1252 is decoded by the cp1252 fallback. -/
theorem c5_encoding_fallback :
    (∀ (α : Type) (parse : List Nat → Except String α) (raw : List Nat),
        read_csv_from_bytes parse raw = CsvOutcome.decodeError
          ↔ ∀ p ∈ encodingCandidates, p.2 raw = none) ∧
    (∀ (α : Type) (parse : List Nat → Except String α) (raw : List Nat) (enc : String)
        (txt : List Nat), decodeFirst raw = some (enc, txt) →
          read_csv_from_bytes parse raw
            = match parse txt with
              | .ok a => CsvOutcome.ok enc a
              | .error m => CsvOutcome.parserError m) ∧
    decodeFirst [0x63, 0xE9] = some ("cp1252", [0x63, 0xE9]) ∧
    utf8SigDecode [0x63, 0xE9] = none ∧
    utf8Decode [0x63, 0xE9] = none := by
  refine ⟨?_, ?_, by decide, by decide, by decide⟩
  · intro α parse raw
    exact readCsvGo_eq_decodeError_iff parse raw encodingCandidates
  · intro α parse raw enc txt h
    exact readCsvGo_first parse raw encodingCandidates enc txt h

/-- Witness for claim C5: a two-byte stream whose second byte is invalid
UTF-8 is read under the cp1252 fallback. -/
theorem c5_encoding_fallback_witness :
    read_csv_from_bytes (fun t => Except.ok t) [0x63, 0xE9]
      = CsvOutcome.ok "cp1252" [0x63, 0xE9] :=
  c5_encoding_fallback.2.1 (List Nat) (fun t => Except.ok t) [0x63, 0xE9] "cp1252"
    [0x63, 0xE9] (by decide)

/-- Claim C10: the final all-candidates-failed branch of the reader is
unreachable: the latin1 candidate decodes every byte stream, so the reader
returns a parsed table or propagates a parser error and never the decode
failure. -/
theorem c10_decode_error_unreachable (α : Type) (parse : List Nat → Except String α)
    (raw : List Nat) :
    read_csv_from_bytes parse raw ≠ CsvOutcome.decodeError ∧
    latin1Decode raw = some raw ∧
    ((∃ enc a, read_csv_from_bytes parse raw = CsvOutcome.ok enc a) ∨
      (∃ m, read_csv_from_bytes parse raw = CsvOutcome.parserError m)) := by
  have hne : read_csv_from_bytes parse raw ≠ CsvOutcome.decodeError := by
    rw [Ne, read_csv_from_bytes, readCsvGo_eq_decodeError_iff]
    intro hall
    have hl := hall ("latin1", latin1Decode) (by simp [encodingCandidates])
    simp [latin1Decode] at hl
  refine ⟨hne, rfl, ?_⟩
  cases hout : read_csv_from_bytes parse raw with
  | ok enc a => exact Or.inl ⟨enc, a, rfl⟩
  | parserError m => exact Or.inr ⟨m, rfl⟩
  | decodeError => exact absurd hout hne

/-- Witness for claim C10: on a byte that no Unicode form accepts, the
reader still does not end in the decode failure. -/
theorem c10_decode_error_unreachable_witness :
    read_csv_from_bytes (fun t => Except.ok t) [0xFF] ≠ CsvOutcome.decodeError :=
  (c10_decode_error_unreachable (List Nat) (fun t => Except.ok t) [0xFF]).1

/-! ### Claim C6 -/

/-- Claim C6 counterexample: with an empty left key list and one right key
the lengths differ, yet the validation fails with the empty-key-set error,
not the key-count-mismatch error the claim names for every length
mismatch: the empty-key check runs first. -/
theorem c6_claim_counterexample :
    build_spec ["A"] ["X"] [] ["X"] ["A", "B"] ["X"] "outer"
      = Except.error ConfigError.emptyKeySet ∧
    ([] : List String).length ≠ (["X"] : List String).length ∧
    ConfigError.emptyKeySet ≠ ConfigError.keyCountMismatch := by
  refine ⟨rfl, by decide, by decide⟩

/-- Claim C6 (amended): an invalid key selection fails before any run is
created, with the empty-key-set error whenever either side has no keys and
with the key-count-mismatch error whenever the lengths differ and both
sides are non-empty; the ledger is unchanged in both cases. -/
theorem c6_key_validation (cols_w1 cols_ds keys_w1 keys_ds hdr_w1 hdr_ds : List String)
    (join_type : String) (read : Except String (List Row × List Row)) (now : Nat)
    (io : Except String (String × String)) (ledger : List RunRecord)
    (h : keys_w1 = [] ∨ keys_ds = [] ∨ keys_w1.length ≠ keys_ds.length) :
    (∃ e, build_spec cols_w1 cols_ds keys_w1 keys_ds hdr_w1 hdr_ds join_type
          = Except.error e ∧
        (e = ConfigError.emptyKeySet ↔ (keys_w1 = [] ∨ keys_ds = [])) ∧
        (e = ConfigError.keyCountMismatch
          ↔ (keys_w1 ≠ [] ∧ keys_ds ≠ [] ∧ keys_w1.length ≠ keys_ds.length))) ∧
    (configure_and_run cols_w1 cols_ds keys_w1 keys_ds hdr_w1 hdr_ds join_type read now io
        ledger).2 = ledger := by
  by_cases hE : keys_w1 = [] ∨ keys_ds = []
  · have hb : build_spec cols_w1 cols_ds keys_w1 keys_ds hdr_w1 hdr_ds join_type
        = Except.error ConfigError.emptyKeySet := by
      rw [build_spec, if_pos hE]
    refine ⟨⟨ConfigError.emptyKeySet, hb, by simp [hE], ?_⟩, ?_⟩
    · constructor
      · intro hc
        exact absurd hc (by decide)
      · rintro ⟨h1, h2, -⟩
        rcases hE with hE | hE
        · exact absurd hE h1
        · exact absurd hE h2
    · simp only [configure_and_run, hb]
  · push_neg at hE
    have hlen : keys_w1.length ≠ keys_ds.length := by
      rcases h with h | h | h
      · exact absurd h hE.1
      · exact absurd h hE.2
      · exact h
    have hb : build_spec cols_w1 cols_ds keys_w1 keys_ds hdr_w1 hdr_ds join_type
        = Except.error ConfigError.keyCountMismatch := by
      rw [build_spec, if_neg (by push_neg; exact hE), if_pos hlen]
    refine ⟨⟨ConfigError.keyCountMismatch, hb, ?_, by simp [hE.1, hE.2, hlen]⟩, ?_⟩
    · constructor
      · intro hc
        exact absurd hc (by decide)
      · rintro (hc | hc)
        · exact absurd hc hE.1
        · exact absurd hc hE.2
    · simp only [configure_and_run, hb]

/-- Witness for claim C6: the configuration with keys A, B against the
single key X fails and creates no run. -/
theorem c6_key_validation_witness :
    (configure_and_run ["A", "B"] ["X"] ["A", "B"] ["X"] ["A", "B"] ["X"] "outer"
        (Except.error "") 0 (Except.error "") []).2 = [] :=
  (c6_key_validation ["A", "B"] ["X"] ["A", "B"] ["X"] ["A", "B"] ["X"] "outer"
      (Except.error "") 0 (Except.error "") []
      (Or.inr (Or.inr (by decide)))).2

/-! ### Claim C7 -/

/-- Claim C7: after the run record is created, every outcome of the body
leaves the run in a terminal state with the completion time stamped; an
error is caught, its message stored in the message field and the status
set to failed; and every run in the ledger after run_with_session is a
pre-existing record or a terminal one. -/
theorem c7_run_terminal (now : Nat) (body : Except String (Nat × Nat × String × String)) :
    ((runBoundary initialRun now body).status = "success" ∨
      (runBoundary initialRun now body).status = "failed") ∧
    (runBoundary initialRun now body).finishedAt = some now ∧
    (∀ msg, body = Except.error msg →
        (runBoundary initialRun now body).status = "failed" ∧
        (runBoundary initialRun now body).message = msg) ∧
    (∀ (read : Except String (List Row × List Row)) (cfg : Cfg)
        (io : Except String (String × String)) (ledger : List RunRecord),
        ∀ r ∈ run_with_session_model read cfg now io ledger,
          r ∈ ledger ∨ r.status = "success" ∨ r.status = "failed") := by
  refine ⟨?_, ?_, ?_, ?_⟩
  · cases body with
    | ok v =>
      obtain ⟨a, b, c, d⟩ := v
      exact Or.inl rfl
    | error m => exact Or.inr rfl
  · cases body with
    | ok v =>
      obtain ⟨a, b, c, d⟩ := v
      rfl
    | error m => rfl
  · intro msg hmsg
    subst hmsg
    exact ⟨rfl, rfl⟩
  · intro read cfg io ledger r hr
    cases read with
    | error m => exact Or.inl hr
    | ok p =>
      obtain ⟨t1, t2⟩ := p
      rw [run_with_session_model] at hr
      rcases List.mem_append.mp hr with hr | hr
      · exact Or.inl hr
      · have hre : r = runBoundary initialRun now (runBody cfg t1 t2 io) := by
          simpa using hr
        subst hre
        cases hio : runBody cfg t1 t2 io with
        | ok v =>
          obtain ⟨a, b, c, d⟩ := v
          exact Or.inr (Or.inl rfl)
        | error m => exact Or.inr (Or.inr rfl)

/-- Witness for claim C7: a body failing with the message boom leaves a
failed run carrying that message. -/
theorem c7_run_terminal_witness :
    (runBoundary initialRun 7 (Except.error "boom")).status = "failed" ∧
    (runBoundary initialRun 7 (Except.error "boom")).message = "boom" :=
  (c7_run_terminal 7 (Except.error "boom")).2.2.1 "boom" rfl

/-! ### Claim C8 -/

/-- Claim C8: the export sanitizer turns each row into its non-_merge
entries with names and textualized cells stripped of the illegal
characters; stripping removes exactly the characters U+0000 to U+0008,
U+000B, U+000C and U+000E to U+001F, keeping every other character with
its multiplicity and order; the absent marker becomes the empty string; a
cell holding U+0001 becomes empty and a name with an embedded U+000B keeps
the rest of its characters. -/
theorem c8_export_sanitizer (rows : List Row) (s : String) :
    (∀ r ∈ rows,
        ((r.filter (fun p => p.1 ≠ "_merge")).map
            (fun p => (stripIllegal p.1, stripIllegal (p.2.getD ""))))
          ∈ sanitize_for_export rows) ∧
    (∀ ch : Char, ch ∈ (stripIllegal s).data ↔ ch ∈ s.data ∧ illegalXlsxChar ch = false) ∧
    (stripIllegal s).data.Sublist s.data ∧
    (∀ ch : Char, illegalXlsxChar ch = false →
        (stripIllegal s).data.count ch = s.data.count ch) ∧
    (∀ ch : Char, illegalXlsxChar ch = true ↔
        (ch.toNat ≤ 8 ∨ ch.toNat = 11 ∨ ch.toNat = 12 ∨ (14 ≤ ch.toNat ∧ ch.toNat ≤ 31))) ∧
    stripIllegal "\x01" = "" ∧
    stripIllegal "ab\x0Bcd" = "abcd" ∧
    sanitize_for_export [[("_merge", some "both"), ("a", some "1"), ("b", none)]]
      = [[("a", "1"), ("b", "")]] := by
  refine ⟨?_, ?_, ?_, ?_, ?_, by decide, by decide, by decide⟩
  · intro r hr
    exact List.mem_map_of_mem _ hr
  · intro ch
    simp only [stripIllegal, List.mem_filter, Bool.not_eq_true']
  · exact List.filter_sublist _
  · intro ch hch
    exact List.count_filter (by simp [hch])
  · intro ch
    simp [illegalXlsxChar, or_assoc]

/-- Witness for claim C8: stripping preserves the count of a legal
character. -/
theorem c8_export_sanitizer_witness :
    (stripIllegal "ab\x0Bcd").data.count 'b' = ("ab\x0Bcd" : String).data.count 'b' :=
  (c8_export_sanitizer [] "ab\x0Bcd").2.2.2.1 'b' (by decide)

/-! ### Claim C9 -/

theorem mem_dedupGo (x : String) (seen l : List String) :
    x ∈ dedupGo seen l ↔ x ∈ l ∧ x ∉ seen := by
  induction l generalizing seen with
  | nil => simp [dedupGo]
  | cons hd tl ih =>
    rw [dedupGo]
    by_cases hs : hd ∈ seen
    · rw [if_pos hs, ih]
      simp only [List.mem_cons]
      constructor
      · rintro ⟨h1, h2⟩
        exact ⟨Or.inr h1, h2⟩
      · rintro ⟨h1 | h1, h2⟩
        · subst h1
          exact absurd hs h2
        · exact ⟨h1, h2⟩
    · rw [if_neg hs]
      simp only [List.mem_cons, ih]
      constructor
      · rintro (h | ⟨h1, h2⟩)
        · subst h
          exact ⟨Or.inl rfl, hs⟩
        · exact ⟨Or.inr h1, fun hx => h2 (Or.inr hx)⟩
      · rintro ⟨h1 | h1, h2⟩
        · exact Or.inl h1
        · by_cases hx : x = hd
          · exact Or.inl hx
          · refine Or.inr ⟨h1, ?_⟩
            rintro (hm | hm)
            · exact hx hm
            · exact h2 hm

theorem mem_dedup (x : String) (l : List String) : x ∈ dedup l ↔ x ∈ l := by
  rw [dedup, mem_dedupGo]
  simp

theorem nodup_dedupGo (seen l : List String) : (dedupGo seen l).Nodup := by
  induction l generalizing seen with
  | nil => simp [dedupGo]
  | cons hd tl ih =>
    rw [dedupGo]
    by_cases hs : hd ∈ seen
    · rw [if_pos hs]
      exact ih seen
    · rw [if_neg hs]
      refine List.nodup_cons.mpr ⟨?_, ih (hd :: seen)⟩
      intro hmem
      exact ((mem_dedupGo hd (hd :: seen) tl).mp hmem).2 (List.mem_cons_self hd seen)

theorem dedupGo_sublist (seen l : List String) : (dedupGo seen l).Sublist l := by
  induction l generalizing seen with
  | nil => simp [dedupGo]
  | cons hd tl ih =>
    rw [dedupGo]
    by_cases hs : hd ∈ seen
    · rw [if_pos hs]
      exact (ih seen).cons hd
    · rw [if_neg hs]
      exact (ih (hd :: seen)).cons₂ hd

/-- Claim C9: the stored projection of each side is the chosen columns
with that side's keys appended, deduplicated keeping first occurrences in
order (no duplicates, a subsequence of the concatenation, same members),
so every key column belongs to its side's projection. -/
theorem c9_projection_keys (cols_w1 cols_ds keys_w1 keys_ds hdr_w1 hdr_ds : List String)
    (join_type : String) (cfg : Cfg)
    (h : build_spec cols_w1 cols_ds keys_w1 keys_ds hdr_w1 hdr_ds join_type
      = Except.ok cfg) :
    cfg.columns_web1 = dedup (cols_w1 ++ keys_w1) ∧
    cfg.columns_desktop = dedup (cols_ds ++ keys_ds) ∧
    (∀ x, x ∈ cfg.columns_web1 ↔ x ∈ cols_w1 ∨ x ∈ keys_w1) ∧
    (∀ x, x ∈ cfg.columns_desktop ↔ x ∈ cols_ds ∨ x ∈ keys_ds) ∧
    cfg.columns_web1.Nodup ∧ cfg.columns_desktop.Nodup ∧
    cfg.columns_web1.Sublist (cols_w1 ++ keys_w1) ∧
    cfg.columns_desktop.Sublist (cols_ds ++ keys_ds) ∧
    (∀ k ∈ keys_w1, k ∈ cfg.columns_web1) ∧
    (∀ k ∈ keys_ds, k ∈ cfg.columns_desktop) := by
  rw [build_spec] at h
  by_cases h1 : keys_w1 = [] ∨ keys_ds = []
  · rw [if_pos h1] at h
    exact absurd h (by simp)
  rw [if_neg h1] at h
  by_cases h2 : keys_w1.length ≠ keys_ds.length
  · rw [if_pos h2] at h
    exact absurd h (by simp)
  rw [if_neg h2] at h
  cases hv1 : validate_columns cols_w1 hdr_w1 with
  | some e =>
    rw [hv1] at h
    exact absurd h (by simp)
  | none =>
  rw [hv1] at h
  cases hv2 : validate_columns cols_ds hdr_ds with
  | some e =>
    rw [hv2] at h
    exact absurd h (by simp)
  | none =>
  rw [hv2] at h
  cases hv3 : validate_columns keys_w1 hdr_w1 with
  | some e =>
    rw [hv3] at h
    exact absurd h (by simp)
  | none =>
  rw [hv3] at h
  cases hv4 : validate_columns keys_ds hdr_ds with
  | some e =>
    rw [hv4] at h
    exact absurd h (by simp)
  | none =>
  rw [hv4] at h
  have hc := Except.ok.inj h
  subst hc
  refine ⟨rfl, rfl, ?_, ?_, nodup_dedupGo [] _, nodup_dedupGo [] _,
    dedupGo_sublist [] _, dedupGo_sublist [] _, ?_, ?_⟩
  · intro x
    rw [mem_dedup, List.mem_append]
  · intro x
    rw [mem_dedup, List.mem_append]
  · intro k hk
    exact (mem_dedup k _).mpr (List.mem_append_right _ hk)
  · intro k hk
    exact (mem_dedup k _).mpr (List.mem_append_right _ hk)

/-- Witness for claim C9: a key column not among the chosen columns is in
the stored projection. -/
theorem c9_projection_keys_witness :
    ("id" : String) ∈ dedup (["name"] ++ ["id"]) := by
  have h := c9_projection_keys ["name"] ["name"] ["id"] ["id"] ["id", "name"] ["id", "name"]
    "outer" { columns_web1 := ["name", "id"], columns_desktop := ["name", "id"],
              join_key_web1 := ["id"], join_key_desktop := ["id"], join_type := "outer" } rfl
  exact h.1 ▸ h.2.2.2.2.2.2.2.2.1 "id" (by decide)

end Prosuma
